import Mathlib

/-!
Shallow embedding of the runtime value-resolution layer of the expression VM
(package `vm`, file `runtime.go`), together with a model of the opcode
naming / disassembly contract (whose implementation is outside the provided
sources; only its test is present).

Go dynamic values (`interface{}`) are modelled by the inductive `Vm.Value`;
reflection kinds by `Vm.Kind`.  Machine integers are carried as `Int`
together with the `IntKind` recording width and signedness; Go's wrapping
conversions are explicit `% 2^w` reductions.  Floating-point payloads are
carried as rationals: the only float operation the claims touch is unary
negation, which is exact (a sign-bit flip) in IEEE 754, so the rational
carrier is faithful for it.  Go strings are byte sequences; their byte
representation is computed by an explicit UTF-8 encoder.  Panics in the Go
code become `Except Err` results; the constructors of `Err` distinguish the
panics raised by `runtime.go` itself (which carry the operator, the key and
the container's type) from the payload-free panics raised inside the
`reflect` package (index out of range, `Elem`/`Interface` misuse, map key
assignability and hashability).
-/

namespace Vm

/-- Width-and-signedness tags of Go's fixed-width integer kinds.
`int` and `uint` are modelled as 64-bit, the usual build target. -/
inductive IntKind where
  | i | i8 | i16 | i32 | i64
  | u | u8 | u16 | u32 | u64
  deriving DecidableEq, Repr

def IntKind.width : IntKind → Nat
  | .i => 64 | .i8 => 8 | .i16 => 16 | .i32 => 32 | .i64 => 64
  | .u => 64 | .u8 => 8 | .u16 => 16 | .u32 => 32 | .u64 => 64

def IntKind.signed : IntKind → Bool
  | .i | .i8 | .i16 | .i32 | .i64 => true
  | .u | .u8 | .u16 | .u32 | .u64 => false

def IntKind.name : IntKind → String
  | .i => "int" | .i8 => "int8" | .i16 => "int16" | .i32 => "int32" | .i64 => "int64"
  | .u => "uint" | .u8 => "uint8" | .u16 => "uint16" | .u32 => "uint32" | .u64 => "uint64"

/-- Range of representable values of an integer kind. -/
def IntKind.inRange (ik : IntKind) (n : Int) : Prop :=
  if ik.signed then -(2 ^ (ik.width - 1)) ≤ n ∧ n < 2 ^ (ik.width - 1)
  else 0 ≤ n ∧ n < 2 ^ ik.width

instance (ik : IntKind) (n : Int) : Decidable (ik.inRange n) := by
  unfold IntKind.inRange; infer_instance

/-- Reduction of an integer into the signed two's-complement range of width `w`,
as performed by a Go conversion to a signed integer type. -/
def wrapSigned (w : Nat) (n : Int) : Int :=
  let m := n % (2 ^ w : Int)
  if m < 2 ^ (w - 1) then m else m - 2 ^ w

/-- Reduction of an integer modulo `2^w`, as performed by a Go conversion to an
unsigned integer type. -/
def wrapUnsigned (w : Nat) (n : Int) : Int :=
  n % (2 ^ w : Int)

/-- Go's wrapping reduction into the representable range of `ik`. -/
def IntKind.wrap (ik : IntKind) (n : Int) : Int :=
  if ik.signed then wrapSigned ik.width n else wrapUnsigned ik.width n

/-- Reflection kinds of declared Go types, as far as the runtime layer
inspects them.  `interfaceK` is the kind of a declared `interface{}` key or
element type; a concrete runtime value never has this kind. -/
inductive Kind where
  | invalidK
  | boolK
  | intK (ik : IntKind)
  | float32K
  | float64K
  | stringK
  | sliceK (elem : Kind)
  | mapK (key elem : Kind)
  | structK
  | ptrK (elem : Kind)
  | funcK
  | chanK
  | interfaceK
  | fetcherK
  deriving DecidableEq, Repr

/-- Dynamic runtime values (`interface{}`).  `nil` is the nil interface.
`slice`/`map`/`ptr` carry `none` in the nil-reference state.  A host value
implementing the custom-accessor capability is modelled by `fetcher`,
carrying its `Fetch` behaviour as a finite key/result table (an inductive
cannot store a function over `Value` itself); `Fetch k` is the first entry
for `k`, and nil when there is none. -/
inductive Value where
  | nil
  | bool (b : Bool)
  | int (ik : IntKind) (n : Int)
  | float32 (q : ℚ)
  | float64 (q : ℚ)
  | str (s : String)
  | slice (elem : Kind) (elems : Option (List Value))
  | map (keyK elemK : Kind) (entries : Option (List (Value × Value)))
  | struct (fields : List (String × Value))
  | ptr (pointee : Kind) (target : Option Value)
  | func (isNilFunc : Bool)
  | chan (isNilChan : Bool)
  | fetcher (table : List (Value × Value))

/- Structural boolean equality on dynamic values, modelling Go's `==` on the
key kinds the runtime compares (map keys).  Written by hand because the
nested occurrences of `Value` defeat instance derivation. -/
mutual

def Value.beq : Value → Value → Bool
  | .nil, .nil => true
  | .bool a, .bool b => a == b
  | .int ik m, .int jk n => ik == jk && m == n
  | .float32 p, .float32 q => p == q
  | .float64 p, .float64 q => p == q
  | .str s, .str t => s == t
  | .slice e xs, .slice f ys => e == f && beqOptList xs ys
  | .map a b xs, .map c d ys => a == c && b == d && beqOptPairs xs ys
  | .struct fs, .struct gs => beqFields fs gs
  | .ptr k t, .ptr l u => k == l && beqOpt t u
  | .func a, .func b => a == b
  | .chan a, .chan b => a == b
  | .fetcher xs, .fetcher ys => beqPairs xs ys
  | _, _ => false

def beqOpt : Option Value → Option Value → Bool
  | none, none => true
  | some x, some y => Value.beq x y
  | _, _ => false

def beqOptList : Option (List Value) → Option (List Value) → Bool
  | none, none => true
  | some xs, some ys => beqList xs ys
  | _, _ => false

def beqList : List Value → List Value → Bool
  | [], [] => true
  | x :: xs, y :: ys => Value.beq x y && beqList xs ys
  | _, _ => false

def beqOptPairs : Option (List (Value × Value)) → Option (List (Value × Value)) → Bool
  | none, none => true
  | some xs, some ys => beqPairs xs ys
  | _, _ => false

def beqPairs : List (Value × Value) → List (Value × Value) → Bool
  | [], [] => true
  | (k, v) :: xs, (l, w) :: ys => Value.beq k l && Value.beq v w && beqPairs xs ys
  | _, _ => false

def beqFields : List (String × Value) → List (String × Value) → Bool
  | [], [] => true
  | (n, v) :: xs, (m, w) :: ys => n == m && Value.beq v w && beqFields xs ys
  | _, _ => false

end

/- Go comparability of a key's dynamic type, the condition under which
`reflect.Value.MapIndex` can hash it: booleans, numerics, strings, pointers
and channels are comparable, structs are comparable when every field is,
and slices, maps and functions are not — an interface-keyed map given such
a key panics at runtime with a hash-of-unhashable-type error, even when the
map is empty.  The nil interface is excluded here too (`MapIndex` rejects
the invalid key), and a capability-carrying accessor value is excluded
conservatively because its underlying host type is not tracked. -/
mutual

def hashable : Value → Bool
  | .nil => false
  | .bool _ => true
  | .int _ _ => true
  | .float32 _ => true
  | .float64 _ => true
  | .str _ => true
  | .slice _ _ => false
  | .map _ _ _ => false
  | .struct fields => hashableFields fields
  | .ptr _ _ => true
  | .func _ => false
  | .chan _ => true
  | .fetcher _ => false

def hashableFields : List (String × Value) → Bool
  | [] => true
  | (_, v) :: rest => hashable v && hashableFields rest

end

/-- Reflection kind of a concrete runtime value (`reflect.ValueOf(v).Kind()`);
the nil interface gives the invalid kind. -/
def Value.kindOf : Value → Kind
  | .nil => .invalidK
  | .bool _ => .boolK
  | .int ik _ => .intK ik
  | .float32 _ => .float32K
  | .float64 _ => .float64K
  | .str _ => .stringK
  | .slice e _ => .sliceK e
  | .map kk ek _ => .mapK kk ek
  | .struct _ => .structK
  | .ptr pk _ => .ptrK pk
  | .func _ => .funcK
  | .chan _ => .chanK
  | .fetcher _ => .fetcherK

/-- Rendering of a value's dynamic type, as `fmt.Sprintf`'s `%T` does in the
panic messages; only its presence in errors matters to the claims. -/
def Value.typeName : Value → String
  | .nil => "<nil>"
  | .bool _ => "bool"
  | .int ik _ => ik.name
  | .float32 _ => "float32"
  | .float64 _ => "float64"
  | .str _ => "string"
  | .slice _ _ => "[]T"
  | .map _ _ _ => "map[K]V"
  | .struct _ => "struct"
  | .ptr _ _ => "*T"
  | .func _ => "func"
  | .chan _ => "chan"
  | .fetcher _ => "Fetcher"

/-- Zero value of a declared type (`reflect.Zero`).  Reference kinds give the
nil reference; the zero struct is modelled with no fields since `Kind` does
not track field types; `invalidK`, `interfaceK` and `fetcherK` give nil. -/
def Kind.zero : Kind → Value
  | .invalidK => .nil
  | .boolK => .bool false
  | .intK ik => .int ik 0
  | .float32K => .float32 0
  | .float64K => .float64 0
  | .stringK => .str ""
  | .sliceK e => .slice e none
  | .mapK kk ek => .map kk ek none
  | .structK => .struct []
  | .ptrK k => .ptr k none
  | .funcK => .func true
  | .chanK => .chan true
  | .interfaceK => .nil
  | .fetcherK => .nil

/-- Failure outcomes.  The first group models the `panic(fmt.Sprintf(...))`
calls written in `runtime.go`; the second group models panics raised inside
the `reflect` package itself, which carry none of the operator, key or
container-type information. -/
inductive Err where
  | cannotFetch (key : Value) (fromType : String)
  | cannotGet (nm : String) (fromType : String)
  | cannotSlice (fromVal : Value)
  | invalidNegate (t : String)
  | invalidConv (target : String) (t : String)
  | indexOutOfRange
  | badMapKey
  | zeroValueInterface
  | elemOnBadKind
  | reflectZeroValue

/-- UTF-8 encoding of one character, byte values as naturals. -/
def utf8Char (c : Char) : List Nat :=
  let n := c.toNat
  if n < 0x80 then [n]
  else if n < 0x800 then
    [0xC0 + n / 0x40, 0x80 + n % 0x40]
  else if n < 0x10000 then
    [0xE0 + n / 0x1000, 0x80 + n / 0x40 % 0x40, 0x80 + n % 0x40]
  else
    [0xF0 + n / 0x40000, 0x80 + n / 0x1000 % 0x40, 0x80 + n / 0x40 % 0x40, 0x80 + n % 0x40]

/-- Byte sequence of a Go string (Go strings are UTF-8 byte sequences; `len`
and indexing act on bytes). -/
def strBytes (s : String) : List Nat :=
  s.data.flatMap utf8Char

/-- Kinds for which the one-level pointer indirection in `fetch` is followed
(the `follow` table in the source): maps, slices and structs. -/
def followK : Kind → Bool
  | .mapK _ _ | .sliceK _ | .structK => true
  | _ => false

/-- Kinds whose pointers `normalize` dereferences (the `deref` table in the
source; the complex kinds are omitted because no complex values are
modelled). -/
def derefK : Kind → Bool
  | .boolK | .float32K | .float64K | .intK _ | .mapK _ _ | .sliceK _ | .stringK => true
  | _ => false

/-- normalize dereferences pointers to basic types, returning the underlying
value.  The source's interface-unwrap step is the identity here because the
model does not wrap values in interface cells; the pointee's dynamic kind is
its declared kind. -/
def normalize : Value → Value
  | .ptr pk (some inner) => if derefK pk then inner else .ptr pk (some inner)
  | v => v

/-- Truncation of a rational toward zero, Go's float-to-int conversion rule
for in-range values. -/
def truncRat (q : ℚ) : Int := q.num.tdiv q.den

/-- Conversion to the 64-bit machine `int` (`toInt` in the source): total on
every numeric kind, wrapping two's-complement reduction on integer kinds,
truncation toward zero on floats, a panic on anything else. -/
def toInt : Value → Except Err Int
  | .float32 q => .ok (wrapSigned 64 (truncRat q))
  | .float64 q => .ok (wrapSigned 64 (truncRat q))
  | .int _ n => .ok (wrapSigned 64 n)
  | v => .error (.invalidConv "int" v.typeName)

/-- Conversion to `int64` (`toInt64` in the source); with the 64-bit build
target it performs the same reduction as `toInt`. -/
def toInt64 : Value → Except Err Int
  | .float32 q => .ok (wrapSigned 64 (truncRat q))
  | .float64 q => .ok (wrapSigned 64 (truncRat q))
  | .int _ n => .ok (wrapSigned 64 n)
  | v => .error (.invalidConv "int64" v.typeName)

/-- Unary negation (`negate` in the source): Go's `-` on each numeric case,
which wraps two's-complement on every integer kind and is exact on floats; a
panic on anything else. -/
def negate : Value → Except Err Value
  | .float32 q => .ok (.float32 (-q))
  | .float64 q => .ok (.float64 (-q))
  | .int ik n => .ok (.int ik (ik.wrap (-n)))
  | v => .error (.invalidNegate v.typeName)

/-- First-match association lookup with the structural value equality, the
model of a Go map read with a `Value` key. -/
def lookupVal : List (Value × Value) → Value → Option Value
  | [], _ => none
  | (k, v) :: rest, key => if Value.beq k key then some v else lookupVal rest key

/-- First-match association lookup with a string key (struct fields, method
sets). -/
def lookupField : List (String × Value) → String → Option Value
  | [], _ => none
  | (n, v) :: rest, nm => if n == nm then some v else lookupField rest nm

/-- Result of the host accessor capability: the first table entry for the
key, nil when there is none, so a stored nil and an absent key coincide. -/
def fetchTable (table : List (Value × Value)) (k : Value) : Value :=
  match lookupVal table k with
  | some v => v
  | none => .nil

/-- Rendering used by `reflect.Value.String` for the struct-field key: the
contents for a string value, a bracketed placeholder (never a panic) for any
other value, which can match no Go field name. -/
def reflectString : Value → String
  | .str s => s
  | .nil => "<invalid Value>"
  | v => "<" ++ v.typeName ++ " Value>"

/-- Elem of a value's dynamic type (`reflect.TypeOf(from).Elem()`): the
pointee type for a pointer, the value type for a map, the element type for a
slice.  `fetch` reaches it only with a map or a pointer-to-map argument. -/
def elemKindOf : Value → Kind
  | .map _ ek _ => ek
  | .ptr pk _ => pk
  | .slice e _ => e
  | _ => .invalidK

/-- Acceptability of a concrete key to `reflect.Value.MapIndex` for a map
with the declared key kind: the kinds must agree (a declared concrete map
key type is comparable by construction, or the map type would not compile),
or the declared key type is the empty interface, which accepts any valid key
whose dynamic type is `hashable` — for an unhashable key `MapIndex` panics
at runtime. -/
def keyAssignable (kk : Kind) (k : Value) : Bool :=
  k.kindOf == kk || (kk == Kind.interfaceK && hashable k)

/-- Keyed read access into a dynamic value (`fetch` in the source).  A value
with the accessor capability is consulted first and never reaches structural
resolution.  Otherwise one level of pointer indirection is followed when it
leads to a map, slice or struct; sequences index by the coerced integer key
(reflection's own out-of-range panic carries no payload), maps fall back to
the zero value of `reflect.TypeOf(from).Elem()` on a missing key, structs
look up the field named by the key's `reflect.Value.String` rendering (a
missing field makes `normalize` call `Interface` on the zero reflect value,
a payload-free reflect panic), and every other shape panics with the
operator, key and container type unless `nilsafe` converts that to nil. -/
def fetch (frm i : Value) (nilsafe : Bool) : Except Err Value :=
  match frm with
  | .fetcher table =>
    match fetchTable table i with
    | .nil =>
      if !nilsafe then .error (.cannotFetch i (Value.typeName (.fetcher table)))
      else .ok .nil
    | value => .ok value
  | _ =>
    let v := match frm with
      | .ptr pk (some inner) => if followK pk then inner else frm
      | _ => frm
    match v with
    | .slice _ oelems =>
      match toInt i with
      | .error e => .error e
      | .ok idx =>
        let elems := oelems.getD []
        if h : 0 ≤ idx ∧ idx.toNat < elems.length then
          .ok (normalize (elems.get ⟨idx.toNat, h.2⟩))
        else .error .indexOutOfRange
    | .str s =>
      match toInt i with
      | .error e => .error e
      | .ok idx =>
        let bytes := strBytes s
        if h : 0 ≤ idx ∧ idx.toNat < bytes.length then
          .ok (.int .u8 (bytes.get ⟨idx.toNat, h.2⟩ : Nat))
        else .error .indexOutOfRange
    | .map kk _ oentries =>
      if !keyAssignable kk i then .error .badMapKey
      else
        match lookupVal (oentries.getD []) i with
        | some value => .ok (normalize value)
        | none => .ok (Kind.zero (elemKindOf frm))
    | .struct fields =>
      match lookupField fields (reflectString i) with
      | some fv => .ok (normalize fv)
      | none => .error .zeroValueInterface
    | _ =>
      if !nilsafe then .error (.cannotFetch i frm.typeName) else .ok .nil

/-- Clamped slicing (`slice` in the source).  The high bound is clamped down
to the length, then the low bound is clamped up to the clamped high bound;
bounds are read through `toInt`, and reflection itself still rejects a
negative low bound with its payload-free panic.  A pointer is followed by
recursion; everything else panics with a message that interpolates the low
bound (as the source, perhaps inadvertently, does).  The source's array and
string cases are not modelled: the claims concern sequences. -/
def slice (array frm toV : Value) : Except Err Value :=
  match array with
  | .slice el oelems =>
    match toInt frm, toInt toV with
    | .ok a0, .ok b0 =>
      let elems := oelems.getD []
      let len : Int := elems.length
      let b := if b0 > len then len else b0
      let a := if a0 > b then b else a0
      if 0 ≤ a then
        .ok (.slice el (some ((elems.drop a.toNat).take (b - a).toNat)))
      else .error .indexOutOfRange
    | .error e, _ => .error e
    | _, .error e => .error e
  | .ptr _ (some inner) => slice inner frm toV
  | _ => .error (.cannotSlice frm)

/-- Unconditional one-level pointer dereference applied by the invocable
resolver before its map and struct cases (`d := v.Elem()` for pointers);
`none` models the invalid reflect value a nil pointer dereferences to. -/
def derefFn : Value → Option Value
  | .ptr _ t => t
  | v => some v

/-- Name resolution to an invocable (`FetchFn` in the source).  The method
set of the argument's type is reflective information the embedding cannot
read off a value, so it is passed explicitly as `methods`; a nil method
table models a type with no methods, for which the source skips the lookup.
The result models a `reflect.Value`, with `none` the invalid (zero) value:
`reflect.Value.NumMethod` panics on the invalid value, so a nil argument
fails with reflect's zero-value panic.  A found map entry is subjected to
`Elem()`, which unwraps an interface element (to the invalid value when the
stored entry is nil), dereferences a pointer element (to the invalid value
when nil), and panics inside reflect for every other element kind; a found
struct field is returned as-is, with no `normalize` step. -/
def FetchFn (methods : List (String × Value)) (frm : Value) (nm : String) :
    Except Err (Option Value) :=
  match frm with
  | .nil => .error .reflectZeroValue
  | _ =>
    match (if methods.length > 0 then lookupField methods nm else none) with
    | some m => .ok (some m)
    | none =>
      match derefFn frm with
      | some (.map kk ek oentries) =>
        if !(kk == Kind.stringK || kk == Kind.interfaceK) then .error .badMapKey
        else
          match lookupVal (oentries.getD []) (.str nm) with
          | some value =>
            match ek, value with
            | .interfaceK, .nil => .ok none
            | .interfaceK, v => .ok (some v)
            | .ptrK _, .ptr _ (some inner) => .ok (some inner)
            | .ptrK _, .ptr _ none => .ok none
            | _, _ => .error .elemOnBadKind
          | none => .error (.cannotGet nm frm.typeName)
      | some (.struct fields) =>
        match lookupField fields nm with
        | some fv => .ok (some fv)
        | none => .error (.cannotGet nm frm.typeName)
      | _ => .error (.cannotGet nm frm.typeName)

/-- Nil-safe variant (`FetchFnNil` in the source): an invalid argument (the
nil interface) yields the invalid handle instead of failing. -/
def FetchFnNil (methods : List (String × Value)) (frm : Value) (nm : String) :
    Except Err (Option Value) :=
  match frm with
  | .nil => .ok none
  | v => FetchFn methods v nm

/-- Nil test (`isNil` in the source): true for the nil interface and for nil
references of channel, function, map, pointer and slice kinds; false for
everything else. -/
def isNil : Value → Bool
  | .nil => true
  | .chan b => b
  | .func b => b
  | .map _ _ oentries => oentries.isNone
  | .ptr _ t => t.isNone
  | .slice _ oelems => oelems.isNone
  | _ => false

/-- Modelled from the spec: the opcode enumeration and `Program.Disassemble`
are not among the provided sources (only the test exercising them is).  Per
the spec the instruction space is a contiguous ascending range from a first
opcode (`OpPush`, which opens the test's loop) to an exclusive end sentinel
(`OpEnd`), and every code in the range carries a symbolic mnemonic. -/
def mnemonics : List String :=
  ["OpPush", "OpPop", "OpLoad", "OpFetch", "OpTrue", "OpFalse", "OpNil",
   "OpNegate", "OpNot", "OpEqual", "OpJump", "OpJumpIfTrue", "OpJumpIfFalse",
   "OpIn", "OpLength", "OpSlice", "OpCall", "OpRange", "OpBegin"]

def OpPush : Nat := 0

def OpEnd : Nat := mnemonics.length

/-- Modelled from the spec: mnemonic lookup for an opcode. -/
def mnemonicOf (op : Nat) : Option String := mnemonics[op]?

/-- Rendering of one disassembled instruction: either a symbolic mnemonic or
the raw hex fallback token the test greps for. -/
inductive Rendered where
  | mnemonic (s : String)
  | rawHex (code : Nat)
  deriving DecidableEq, Repr

/-- Modelled from the spec: a compiled program, an ordered instruction stream
plus a constant pool. -/
structure Program where
  constants : List Value
  bytecode : List Nat

/-- Modelled from the spec: disassembly renders every instruction, with the
mnemonic when the opcode has one and the raw hex fallback otherwise. -/
def disassemble (p : Program) : List Rendered :=
  p.bytecode.map fun op =>
    match mnemonicOf op with
    | some m => .mnemonic m
    | none => .rawHex op

/-- Numeric shapes, the cases `negate` accepts. -/
def isNumeric : Value → Bool
  | .int _ _ => true
  | .float32 _ => true
  | .float64 _ => true
  | _ => false

/-- Shapes the invocable resolver can structurally resolve after the pointer
dereference: maps and structs. -/
def fnShape : Option Value → Bool
  | some (.map _ _ _) => true
  | some (.struct _) => true
  | _ => false

/-!  Supporting lemmas. -/

theorem wrapSigned_sixtyfour_eq_self (n : Int) (h1 : -(2 ^ 63) ≤ n) (h2 : n < 2 ^ 63) :
    wrapSigned 64 n = n := by
  simp only [wrapSigned]
  split <;> omega

/-!  Claims. -/

/-- C1 (counterexample): fetching an absent key from an empty string-keyed
integer map reached through one level of reference indirection yields the
zero value of the map type itself, a nil map, not the zero value of the
declared value kind (the integer zero), refuting the indirection half of the
claim. -/
theorem C1_counterexample :
    fetch (.ptr (.mapK .stringK (.intK .i)) (some (.map .stringK (.intK .i) (some []))))
        (.str "a") false
      = .ok (.map .stringK (.intK .i) none)
    ∧ Value.map .stringK (.intK .i) none ≠ Kind.zero (.intK .i) :=
  ⟨rfl, fun h => Value.noConfusion h⟩

/-- C1 (amended): for a map passed directly, an absent key that `MapIndex`
accepts (its kind matches the declared key kind, or the key type is the
empty interface and the key's dynamic kind is hashable) yields the zero
value of the map's declared value kind, for both nil-safe settings and never
a failure; for a map reached through one level of reference indirection, the
same lookup instead yields the zero value of the map type itself — a nil
map — because the element type is computed from the unfollowed reference's
type. -/
theorem C1_map_absent_zero (kk ek : Kind) (oentries : Option (List (Value × Value)))
    (k : Value) (ns : Bool)
    (hassign : keyAssignable kk k = true)
    (habsent : lookupVal (oentries.getD []) k = none) :
    fetch (.map kk ek oentries) k ns = .ok (Kind.zero ek)
    ∧ fetch (.ptr (.mapK kk ek) (some (.map kk ek oentries))) k ns
        = .ok (Kind.zero (.mapK kk ek)) := by
  constructor <;> simp [fetch, followK, hassign, habsent, elemKindOf]

theorem C1_witness :
    keyAssignable Kind.stringK (.str "a") = true
    ∧ lookupVal ((some ([] : List (Value × Value))).getD []) (.str "a") = none
    ∧ fetch (.map .stringK (.intK .i) (some [])) (.str "a") false = .ok (.int .i 0) :=
  ⟨rfl, rfl, (C1_map_absent_zero .stringK (.intK .i) (some []) (.str "a") false rfl rfl).1⟩

/-- C2: a container with the custom-accessor capability is resolved by the
accessor alone and never reaches structural resolution: a found (non-nil)
accessor result is returned as-is for both nil-safe settings, and a
not-found result becomes the absent value under nil-safe and otherwise the
lookup failure naming the operator, the key and the container's type. -/
theorem C2_custom_accessor (table : List (Value × Value)) (k : Value) :
    (∀ v, fetchTable table k = v → v ≠ .nil →
      ∀ ns, fetch (.fetcher table) k ns = .ok v)
    ∧ (fetchTable table k = .nil →
        fetch (.fetcher table) k true = .ok .nil
        ∧ fetch (.fetcher table) k false
            = .error (.cannotFetch k (Value.typeName (.fetcher table)))) := by
  have hdef : ∀ ns, fetch (.fetcher table) k ns =
      match fetchTable table k with
      | .nil =>
        if !ns then .error (.cannotFetch k (Value.typeName (.fetcher table)))
        else .ok .nil
      | value => .ok value := fun ns => rfl
  constructor
  · intro v hv hnn ns
    rw [hdef, hv]
    cases v
    · exact absurd rfl hnn
    all_goals rfl
  · intro h
    refine ⟨?_, ?_⟩ <;> rw [hdef, h] <;> rfl

theorem C2_witness :
    fetch (.fetcher [(.str "k", .int .i 7)]) (.str "k") false = .ok (.int .i 7) :=
  (C2_custom_accessor [(.str "k", .int .i 7)] (.str "k")).1 (.int .i 7)
    (by simp [fetchTable, lookupVal, Value.beq]) (fun h => Value.noConfusion h) false

/-- C5 (counterexample): negating the signed 8-bit minimum returns the
minimum itself, by two's-complement wraparound, not the arithmetic
negative 128 the claim requires. -/
theorem C5_counterexample :
    negate (.int .i8 (-128)) = .ok (.int .i8 (-128))
    ∧ negate (.int .i8 (-128)) ≠ .ok (.int .i8 128) := by
  refine ⟨rfl, fun h => ?_⟩
  rw [(rfl : negate (.int .i8 (-128)) = .ok (.int .i8 (-128)))] at h
  injection h with h1
  injection h1 with h2 h3
  exact absurd h3 (by decide)

/-- C5 (amended): negation is exact on floating kinds; on every integer kind
it is the width's two's-complement modular additive inverse and never fails,
so signed kinds receive the arithmetic negative except at the width's
minimum, which is its own negation, and unsigned kinds wrap (negating the
unsigned 8-bit 1 yields 255); every non-numeric value fails. -/
theorem C5_negate_wraps :
    (∀ ik n, ik.inRange n →
      negate (.int ik n) = .ok (.int ik (ik.wrap (-n)))
      ∧ ik.inRange (ik.wrap (-n))
      ∧ (ik.signed = true → n ≠ -(2 ^ (ik.width - 1)) → ik.wrap (-n) = -n)
      ∧ (ik.signed = true → n = -(2 ^ (ik.width - 1)) → ik.wrap (-n) = n)
      ∧ (ik.signed = false → ik.wrap (-n) = (2 ^ ik.width - n) % 2 ^ ik.width))
    ∧ (∀ q, negate (.float32 q) = .ok (.float32 (-q))
          ∧ negate (.float64 q) = .ok (.float64 (-q)))
    ∧ (∀ v, isNumeric v = false → negate v = .error (.invalidNegate v.typeName)) := by
  refine ⟨?_, fun q => ⟨rfl, rfl⟩, ?_⟩
  · intro ik n h
    refine ⟨rfl, ?_, ?_, ?_, ?_⟩ <;>
      cases ik <;>
        simp only [IntKind.wrap, IntKind.signed, IntKind.width, IntKind.inRange,
          wrapSigned, wrapUnsigned, if_true, if_false, reduceIte] at h ⊢ <;>
        norm_num at h ⊢ <;> omega
  · intro v hv
    cases v <;> simp [isNumeric] at hv ⊢ <;> rfl

theorem C5_witness :
    negate (.int .u8 1) = .ok (.int .u8 (IntKind.wrap .u8 (-1)))
    ∧ IntKind.wrap .u8 (-1) = 255
    ∧ negate (.int .i16 5) = .ok (.int .i16 (IntKind.wrap .i16 (-5)))
    ∧ IntKind.wrap .i16 (-5) = -5 :=
  ⟨(C5_negate_wraps.1 .u8 1 (by decide)).1, by decide,
   (C5_negate_wraps.1 .i16 5 (by decide)).1, by decide⟩

/-- C8: `isNil` holds exactly for the absent value and for nil references of
channel, function, map, pointer and slice kinds; in particular the integer
zero, the empty string, boolean false and a non-nil empty sequence are not
nil. -/
theorem C8_isNil_iff :
    (∀ v, isNil v = true ↔
      (v = .nil ∨ v = .chan true ∨ v = .func true
        ∨ (∃ kk ek, v = .map kk ek none) ∨ (∃ pk, v = .ptr pk none)
        ∨ (∃ el, v = .slice el none)))
    ∧ isNil (.int .i 0) = false ∧ isNil (.str "") = false ∧ isNil (.bool false) = false
    ∧ (∀ el, isNil (.slice el (some [])) = false) := by
  refine ⟨?_, rfl, rfl, rfl, fun el => rfl⟩
  intro v
  cases v with
  | nil => simp [isNil]
  | bool b => simp [isNil]
  | int ik n => simp [isNil]
  | float32 q => simp [isNil]
  | float64 q => simp [isNil]
  | str s => simp [isNil]
  | slice el o => cases o <;> simp [isNil]
  | map kk ek o => cases o <;> simp [isNil]
  | struct fs => simp [isNil]
  | ptr pk t => cases t <;> simp [isNil]
  | func b => cases b <;> simp [isNil]
  | chan b => cases b <;> simp [isNil]
  | fetcher t => simp [isNil]

theorem C8_witness : isNil (.ptr .boolK none) = true :=
  (C8_isNil_iff.1 (.ptr .boolK none)).mpr
    (Or.inr (Or.inr (Or.inr (Or.inr (Or.inl ⟨.boolK, rfl⟩)))))

/-- C9: through the custom accessor a nil result is indistinguishable from
not-found: a stored nil entry yields the not-found outcome, a failure
without nil-safe and the absent value with it, while any non-nil accessor
result is returned unchanged with no further checks. -/
theorem C9_fetcher_nil_indistinguishable (table : List (Value × Value)) (k : Value) :
    (lookupVal table k = some .nil → fetchTable table k = .nil)
    ∧ (fetchTable table k = .nil →
        fetch (.fetcher table) k false
          = .error (.cannotFetch k (Value.typeName (.fetcher table)))
        ∧ fetch (.fetcher table) k true = .ok .nil)
    ∧ (∀ v, fetchTable table k = v → v ≠ .nil →
        ∀ ns, fetch (.fetcher table) k ns = .ok v) := by
  have hdef : ∀ ns, fetch (.fetcher table) k ns =
      match fetchTable table k with
      | .nil =>
        if !ns then .error (.cannotFetch k (Value.typeName (.fetcher table)))
        else .ok .nil
      | value => .ok value := fun ns => rfl
  refine ⟨?_, ?_, ?_⟩
  · intro h
    simp [fetchTable, h]
  · intro h
    refine ⟨?_, ?_⟩ <;> rw [hdef, h] <;> rfl
  · intro v hv hnn ns
    rw [hdef, hv]
    cases v
    · exact absurd rfl hnn
    all_goals rfl

theorem C9_witness :
    fetchTable [((.str "x" : Value), Value.nil)] (.str "x") = .nil
    ∧ fetch (.fetcher [(.str "x", .nil)]) (.str "x") false
        = .error (.cannotFetch (.str "x") "Fetcher")
    ∧ fetch (.fetcher [(.str "x", .nil)]) (.str "x") true = .ok .nil := by
  have h : fetchTable [((.str "x" : Value), Value.nil)] (.str "x") = .nil := by
    simp [fetchTable, lookupVal, Value.beq]
  exact ⟨h, ((C9_fetcher_nil_indistinguishable [(.str "x", .nil)] (.str "x")).2.1 h).1,
    ((C9_fetcher_nil_indistinguishable [(.str "x", .nil)] (.str "x")).2.1 h).2⟩

/-- C10: the integer coercions are total over every representable fixed-width
integer value and reduce it modulo 2^64 into the signed 64-bit range
(two's-complement wraparound, never saturation or rejection); in particular
an unsigned 64-bit value of at least 2^63 comes out negative. -/
theorem C10_toInt_wraps (ik : IntKind) (n : Int) (h : ik.inRange n) :
    toInt (.int ik n) = .ok (wrapSigned 64 n)
    ∧ toInt64 (.int ik n) = .ok (wrapSigned 64 n)
    ∧ wrapSigned 64 n % 2 ^ 64 = n % 2 ^ 64
    ∧ -(2 ^ 63) ≤ wrapSigned 64 n
    ∧ wrapSigned 64 n < 2 ^ 63
    ∧ (ik = .u64 → 2 ^ 63 ≤ n → wrapSigned 64 n < 0) := by
  refine ⟨rfl, rfl, ?_, ?_, ?_, ?_⟩
  · simp only [wrapSigned]
    split <;> omega
  · simp only [wrapSigned]
    split <;> omega
  · simp only [wrapSigned]
    split <;> omega
  · intro hik hge
    subst hik
    simp only [IntKind.inRange, IntKind.signed, IntKind.width, reduceIte] at h
    simp only [wrapSigned]
    split <;> norm_num at h ⊢ <;> omega

theorem C10_witness :
    toInt64 (.int .u64 (2 ^ 63)) = .ok (wrapSigned 64 (2 ^ 63))
    ∧ wrapSigned 64 (2 ^ 63) < 0 := by
  have h := C10_toInt_wraps .u64 (2 ^ 63) (by decide)
  exact ⟨h.2.1, h.2.2.2.2.2 rfl (by decide)⟩

/-- C3: slicing a sequence clamps the high bound down to the length, then the
low bound up to the clamped high bound, and bound overrun never fails: with
machine-integer bounds `0 ≤ i`, `0 ≤ j` the result always exists; for
`i ≤ j ≤ len` it is the elementwise copy of `S[i:j]` of length `j - i`; for
`j > len` with low bound 0 the result is `S` itself (and with `i ≤ len` it is
`S[i:len]`); and when `i` exceeds the clamped high bound the result is
empty. -/
theorem C3_slice_clamped (el : Kind) (elems : List Value) (i j : Int)
    (hi : 0 ≤ i) (hj : 0 ≤ j)
    (hir : IntKind.inRange .i i) (hjr : IntKind.inRange .i j) :
    (∃ res, slice (.slice el (some elems)) (.int .i i) (.int .i j)
        = .ok (.slice el (some res)))
    ∧ (i ≤ j → j ≤ elems.length →
        slice (.slice el (some elems)) (.int .i i) (.int .i j)
          = .ok (.slice el (some ((elems.drop i.toNat).take (j - i).toNat)))
        ∧ ((elems.drop i.toNat).take (j - i).toNat).length = (j - i).toNat
        ∧ (∀ m : Nat, m < (j - i).toNat →
            ((elems.drop i.toNat).take (j - i).toNat)[m]? = elems[i.toNat + m]?))
    ∧ ((elems.length : Int) < j →
        slice (.slice el (some elems)) (.int .i 0) (.int .i j) = .ok (.slice el (some elems)))
    ∧ ((elems.length : Int) < j → i ≤ elems.length →
        slice (.slice el (some elems)) (.int .i i) (.int .i j)
          = .ok (.slice el (some (elems.drop i.toNat))))
    ∧ (min j (elems.length : Int) < i →
        slice (.slice el (some elems)) (.int .i i) (.int .i j)
          = .ok (.slice el (some []))) := by
  have hir' : -(2 ^ 63) ≤ i ∧ i < 2 ^ 63 := by
    simpa [IntKind.inRange, IntKind.signed, IntKind.width] using hir
  have hjr' : -(2 ^ 63) ≤ j ∧ j < 2 ^ 63 := by
    simpa [IntKind.inRange, IntKind.signed, IntKind.width] using hjr
  have hti : toInt (.int .i i) = .ok i := by
    show Except.ok (wrapSigned 64 i) = Except.ok i
    rw [wrapSigned_sixtyfour_eq_self i hir'.1 hir'.2]
  have htj : toInt (.int .i j) = .ok j := by
    show Except.ok (wrapSigned 64 j) = Except.ok j
    rw [wrapSigned_sixtyfour_eq_self j hjr'.1 hjr'.2]
  have ht0 : toInt (.int .i 0) = .ok 0 := rfl
  refine ⟨?_, ?_, ?_, ?_, ?_⟩
  · simp only [slice, hti, htj, Option.getD_some]
    split_ifs <;> first | exact ⟨_, rfl⟩ | omega
  · intro h1 h2
    have hres : slice (.slice el (some elems)) (.int .i i) (.int .i j)
        = .ok (.slice el (some ((elems.drop i.toNat).take (j - i).toNat))) := by
      simp only [slice, hti, htj, Option.getD_some]
      split_ifs <;> first | rfl | omega
    refine ⟨hres, ?_, ?_⟩
    · simp only [List.length_take, List.length_drop]
      omega
    · intro m hm
      rw [List.getElem?_take_of_lt hm, List.getElem?_drop]
  · intro h1
    simp only [slice, ht0, htj, Option.getD_some]
    split_ifs <;> first | omega | skip
    simp [List.take_length]
  · intro h1 h2
    simp only [slice, hti, htj, Option.getD_some]
    split_ifs <;> first | omega | skip
    refine congrArg _ (congrArg _ (congrArg _ ?_))
    exact List.take_of_length_le (by simp only [List.length_drop]; omega)
  · intro h1
    simp only [slice, hti, htj, Option.getD_some]
    split_ifs <;> first | omega | skip
    all_goals simp_all

theorem C3_witness :
    (0:Int) ≤ 1 ∧ (0:Int) ≤ 2 ∧ IntKind.inRange .i 1 ∧ IntKind.inRange .i 2
    ∧ slice (.slice (.intK .i) (some [.int .i 10, .int .i 20, .int .i 30]))
        (.int .i 1) (.int .i 2)
      = .ok (.slice (.intK .i)
          (some (([Value.int .i 10, .int .i 20, .int .i 30].drop (1:Int).toNat).take
            ((2:Int) - 1).toNat))) := by
  refine ⟨by decide, by decide, by decide, by decide, ?_⟩
  exact ((C3_slice_clamped (.intK .i) [.int .i 10, .int .i 20, .int .i 30] 1 2
    (by decide) (by decide) (by decide) (by decide)).2.1 (by decide) (by decide)).1

/-- C4: over the contiguous opcode range from the first opcode to the end
sentinel, disassembling a single-instruction program yields the symbolic
mnemonic for the opcode and never the raw hex fallback.  The opcode table
and the disassembler are modelled from the spec, as only their test is among
the sources. -/
theorem C4_disassemble_total (op : Nat) (_h1 : OpPush ≤ op) (h2 : op < OpEnd) :
    ∃ m, mnemonicOf op = some m
      ∧ disassemble ⟨[.bool true], [op]⟩ = [.mnemonic m]
      ∧ ∀ c, Rendered.rawHex c ∉ disassemble ⟨[.bool true], [op]⟩ := by
  have hlt : op < mnemonics.length := h2
  refine ⟨mnemonics[op], List.getElem?_eq_getElem hlt, ?_, ?_⟩
  · simp [disassemble, mnemonicOf, List.getElem?_eq_getElem hlt]
  · intro c hc
    simp [disassemble, mnemonicOf, List.getElem?_eq_getElem hlt] at hc

theorem C4_witness :
    OpPush ≤ 3 ∧ 3 < OpEnd
    ∧ ∃ m, mnemonicOf 3 = some m
      ∧ disassemble ⟨[.bool true], [3]⟩ = [.mnemonic m]
      ∧ ∀ c, Rendered.rawHex c ∉ disassemble ⟨[.bool true], [3]⟩ :=
  ⟨by decide, by decide, C4_disassemble_total 3 (by decide) (by decide)⟩

/-- C7 (counterexample): an out-of-range sequence index does fail, but with
the reflection layer's payload-free out-of-range failure, not with the
lookup failure carrying the operator name, the container's kind and the
attempted key that the claim requires. -/
theorem C7_counterexample :
    fetch (.slice (.intK .i) (some [.int .i 1])) (.int .i 5) false
      = .error .indexOutOfRange
    ∧ fetch (.slice (.intK .i) (some [.int .i 1])) (.int .i 5) false
      ≠ .error (.cannotFetch (.int .i 5)
          (Value.typeName (.slice (.intK .i) (some [.int .i 1])))) := by
  refine ⟨rfl, fun h => ?_⟩
  rw [(rfl : fetch (.slice (.intK .i) (some [.int .i 1])) (.int .i 5) false
      = .error .indexOutOfRange)] at h
  injection h with h1
  exact Err.noConfusion h1

/-- C7 (amended): for sequences and strings an out-of-range integer key makes
`fetch` fail for both nil-safe settings — the index is not clamped — but the
failure is reflection's own index-out-of-range panic, which carries neither
the operator name nor the container's kind nor the key. -/
theorem C7_index_not_clamped (el : Kind) (oelems : Option (List Value)) (s : String)
    (k : Value) (idx : Int) (ns : Bool) (hk : toInt k = .ok idx) :
    (idx < 0 ∨ ((oelems.getD []).length : Int) ≤ idx →
      fetch (.slice el oelems) k ns = .error .indexOutOfRange)
    ∧ (idx < 0 ∨ ((strBytes s).length : Int) ≤ idx →
      fetch (.str s) k ns = .error .indexOutOfRange)
    ∧ Err.indexOutOfRange ≠ Err.cannotFetch k (Value.typeName (.slice el oelems)) := by
  refine ⟨fun hout => ?_, fun hout => ?_, fun h => Err.noConfusion h⟩
  · simp only [fetch, hk]
    rw [dif_neg (by omega)]
  · simp only [fetch, hk]
    rw [dif_neg (by omega)]

/-- C6 (counterexample): resolving a name on the nil/invalid container fails
with reflection's payload-free zero-value failure, not with a lookup failure
naming the name and the container's kind as the claim requires of every
container outside the method/map/record chain. -/
theorem C6_counterexample :
    FetchFn [] .nil "f" = .error .reflectZeroValue
    ∧ FetchFn [] .nil "f" ≠ .error (.cannotGet "f" (Value.typeName .nil)) := by
  refine ⟨rfl, fun h => ?_⟩
  rw [(rfl : FetchFn [] .nil "f" = .error .reflectZeroValue)] at h
  injection h with h1
  exact Err.noConfusion h1

/-- C6 (amended): the resolver prefers a method bound under the name when the
container's type exposes at least one method; otherwise, when the container
is (or references through one pointer) a map with string or interface key
type, the entry at the name is returned through reflect's `Elem` step (an
interface entry as-is, nil entries and nil pointer entries as the invalid
handle, a pointer entry dereferenced, any other entry type a payload-free
reflect failure); otherwise, when a record/struct, the field named as stored
with no scalar-dereference normalization; otherwise a non-nil container
fails with a lookup failure naming both the name and the container's kind,
while the nil container and a map with any other key type fail with
reflection's payload-free failures; the nil-safe variant returns the
invalid/absent handle for the nil container and otherwise coincides. -/
theorem C6_fetchFn_resolution (ms : List (String × Value)) (c : Value) (nm : String) :
    (∀ m, c ≠ .nil → ms.length > 0 → lookupField ms nm = some m →
        FetchFn ms c nm = .ok (some m))
    ∧ (∀ kk ek oentries v,
        (if ms.length > 0 then lookupField ms nm else none) = none →
        (kk = .stringK ∨ kk = .interfaceK) →
        lookupVal (oentries.getD []) (.str nm) = some v →
        ((ek = .interfaceK → v ≠ .nil →
            FetchFn ms (.map kk ek oentries) nm = .ok (some v)
            ∧ FetchFn ms (.ptr (.mapK kk ek) (some (.map kk ek oentries))) nm
                = .ok (some v))
          ∧ (ek = .interfaceK → v = .nil →
              FetchFn ms (.map kk ek oentries) nm = .ok none)
          ∧ (∀ pk pk2 pv, ek = .ptrK pk → v = .ptr pk2 pv →
              FetchFn ms (.map kk ek oentries) nm = .ok pv)
          ∧ (ek ≠ .interfaceK → (∀ pk, ek ≠ .ptrK pk) →
              FetchFn ms (.map kk ek oentries) nm = .error .elemOnBadKind)))
    ∧ (∀ fields fv,
        (if ms.length > 0 then lookupField ms nm else none) = none →
        lookupField fields nm = some fv →
        FetchFn ms (.struct fields) nm = .ok (some fv)
        ∧ FetchFn ms (.ptr .structK (some (.struct fields))) nm = .ok (some fv))
    ∧ (∀ fields,
        (if ms.length > 0 then lookupField ms nm else none) = none →
        lookupField fields nm = none →
        FetchFn ms (.struct fields) nm
          = .error (.cannotGet nm (Value.typeName (.struct fields))))
    ∧ (∀ kk ek oentries,
        (if ms.length > 0 then lookupField ms nm else none) = none →
        (kk = .stringK ∨ kk = .interfaceK) →
        lookupVal (oentries.getD []) (.str nm) = none →
        FetchFn ms (.map kk ek oentries) nm
          = .error (.cannotGet nm (Value.typeName (.map kk ek oentries))))
    ∧ (∀ kk ek oentries,
        (if ms.length > 0 then lookupField ms nm else none) = none →
        kk ≠ .stringK → kk ≠ .interfaceK →
        FetchFn ms (.map kk ek oentries) nm = .error .badMapKey)
    ∧ (c ≠ .nil →
        (if ms.length > 0 then lookupField ms nm else none) = none →
        fnShape (derefFn c) = false →
        FetchFn ms c nm = .error (.cannotGet nm c.typeName))
    ∧ FetchFn ms .nil nm = .error .reflectZeroValue
    ∧ FetchFnNil ms .nil nm = .ok none
    ∧ (c ≠ .nil → FetchFnNil ms c nm = FetchFn ms c nm) := by
  refine ⟨?_, ?_, ?_, ?_, ?_, ?_, ?_, rfl, rfl, ?_⟩
  · intro m hc hms hlook
    cases c <;> simp_all [FetchFn]
  · intro kk ek oentries v hskip hkk hlook
    refine ⟨?_, ?_, ?_, ?_⟩
    · intro hek hv
      subst hek
      rcases hkk with h | h <;> subst h <;>
        constructor <;>
          cases v <;> simp_all [FetchFn, derefFn]
    · intro hek hv
      subst hek
      subst hv
      rcases hkk with h | h <;> subst h <;> simp_all [FetchFn, derefFn]
    · intro pk pk2 pv hek hv
      subst hek
      subst hv
      rcases hkk with h | h <;> subst h <;>
        cases pv <;> simp_all [FetchFn, derefFn]
    · intro hek hptr
      rcases hkk with h | h <;> subst h <;>
        cases ek <;> simp_all [FetchFn, derefFn]
  · intro fields fv hskip hlook
    constructor <;> simp_all [FetchFn, derefFn]
  · intro fields hskip hlook
    simp_all [FetchFn, derefFn]
  · intro kk ek oentries hskip hkk hlook
    rcases hkk with h | h <;> subst h <;> simp_all [FetchFn, derefFn]
  · intro kk ek oentries hskip h1 h2
    cases kk <;> simp_all [FetchFn, derefFn]
  · intro hc hskip hshape
    cases c with
    | nil => exact absurd rfl hc
    | ptr pk t =>
      cases t with
      | none => simp_all [FetchFn, derefFn]
      | some inner => cases inner <;> simp_all [FetchFn, derefFn, fnShape]
    | _ => simp_all [FetchFn, derefFn, fnShape]
  · intro hc
    cases c <;> simp_all [FetchFnNil]

theorem C6_witness :
    FetchFn [("m", .func false)] (.struct []) "m" = .ok (some (.func false))
    ∧ FetchFnNil [] .nil "m" = .ok none := by
  have h := C6_fetchFn_resolution [("m", .func false)] (.struct []) "m"
  exact ⟨h.1 (.func false) (fun hh => Value.noConfusion hh) (by decide)
    (by simp [lookupField]), h.2.2.2.2.2.2.2.2.1⟩

theorem C7_witness :
    toInt (.int .i 5) = .ok 5
    ∧ fetch (.slice (.intK .i) (some [.int .i 1, .int .i 2])) (.int .i 5) true
        = .error .indexOutOfRange
    ∧ fetch (.str "ab") (.int .i 5) false = .error .indexOutOfRange := by
  have h1 := (C7_index_not_clamped (.intK .i) (some [.int .i 1, .int .i 2]) "ab"
    (.int .i 5) 5 true rfl).1 (by decide)
  have h2 := (C7_index_not_clamped (.intK .i) (some [.int .i 1, .int .i 2]) "ab"
    (.int .i 5) 5 false rfl).2.1 (by simp [strBytes, utf8Char])
  exact ⟨rfl, h1, h2⟩

end Vm
